import Mathlib

/- A shallow embedding of the component-lifecycle orchestrator in
src/tribler/core/components/base.py: Session, Component, NoneComponent, the
dependency / reverse-dependency edge bookkeeping, concurrent startup with the
failfast / collect policy, and the refcount-driven shutdown drain.

Modelling conventions:
- Python sets are duplicate-free lists of ids (`setAdd` is `set.add`,
  `List.erase` is `set.remove` / `set.discard`);
- an asyncio.Event is a Bool (set / not set); an `await event.wait()` shows up
  either as a precondition (the state at the instant the wait completes) or as
  a `blocked` result when the event is not set;
- component instances, component classes (kinds) and sessions are named by
  natural-number ids; the maps `Global.comps` / `Global.sessions` give the
  object currently associated with an id;
- an exception raised by a subclass `run()` / `shutdown()` hook is an input of
  the model (the orchestrator treats it as opaque data). -/

namespace TriblerComponents

abbrev CompId := Nat
abbrev Kind := Nat
abbrev SessId := Nat

/-- Python `set.add`: a no-op when the element is already present. -/
def setAdd (l : List Nat) (x : Nat) : List Nat :=
  if x ∈ l then l else x :: l

/-- The exception taxonomy of base.py: `SessionError`, the two `ComponentError`
cases raised by `Session.register`, `MissedDependency` (carrying the requester
and the requested kind), `ComponentStartupException` (carrying the offending
component and the original cause), and an arbitrary exception coming out of a
subclass hook, identified by a code. -/
inductive Exn where
  | sessionError : Exn
  | componentAlreadyInSession : CompId → Exn
  | kindAlreadyRegistered : Kind → Exn
  | missedDependency : CompId → Kind → Exn
  | componentStartup : CompId → Exn → Exn
  | hookError : Nat → Exn
deriving Repr, DecidableEq

/-- The per-component state set up by `Component.__init__` in base.py. -/
structure Component where
  session : Option SessId
  dependencies : List CompId
  reverse_dependencies : List CompId
  started_event : Bool
  failed : Bool
  unused_event : Bool
  stopped : Bool
deriving Repr, DecidableEq

/-- `Component.__init__`: no session yet, empty dependency and
reverse-dependency sets, `started_event` not set, not failed, not stopped, and
`unused_event` set (every component starts unused). -/
def Component.mkNew : Component :=
  { session := none
    dependencies := []
    reverse_dependencies := []
    started_event := false
    failed := false
    unused_event := true
    stopped := false }

/-- `Component._use_by(component)`: add `u` to the reverse-dependency set (the
source asserts `u` is not yet a member); if the set now has exactly one
element, clear `unused_event`. -/
def Component.use_by (c : Component) (u : CompId) : Component :=
  let r := setAdd c.reverse_dependencies u
  { c with
    reverse_dependencies := r
    unused_event := if r.length = 1 then false else c.unused_event }

/-- `Component._unuse_by(component)`: remove `u` from the reverse-dependency
set (the source asserts `u` is a member); if the set becomes empty, set
`unused_event`. -/
def Component.unuse_by (c : Component) (u : CompId) : Component :=
  let r := c.reverse_dependencies.erase u
  { c with
    reverse_dependencies := r
    unused_event := if r.isEmpty then true else c.unused_event }

/-- The per-session state from `Session.__init__`: the failfast flag, the
write-once captured startup exception, and the kind-to-component map
`self.components`. -/
structure SessionState where
  failfast : Bool
  startup_exception : Option Exn
  components : Kind → Option CompId

/-- The whole-program state: every component object, every session object, and
the class-level ambient-session machinery `Session._stack` /
`Session._default`.  The stack grows at the end, as `Session.__enter__`
appends. -/
structure Global where
  comps : CompId → Component
  sessions : SessId → SessionState
  stack : List SessId
  defaultSession : Option SessId

/-- Replace the component object associated with id `i`. -/
def updateComp (g : Global) (i : CompId) (f : Component → Component) : Global :=
  { g with comps := fun j => if j = i then f (g.comps j) else g.comps j }

/-- Replace the session object associated with id `s`. -/
def updateSession (g : Global) (s : SessId) (f : SessionState → SessionState) : Global :=
  { g with sessions := fun t => if t = s then f (g.sessions t) else g.sessions t }

/-- `Session.current()`: the top (`[-1]`) of `Session._stack` when the stack is
nonempty, otherwise the process-wide default session; `none` models the
`SessionError` raised when neither exists. -/
def Session.current (g : Global) : Option SessId :=
  match g.stack.getLast? with
  | some s => some s
  | none => g.defaultSession

/-- `Component.instance()` (renamed: `instance` is reserved in Lean): look the
class up in the `components` map of the *current* session
(`Session.current().components.get(cls)`). -/
def Component.instanceLookup (g : Global) (k : Kind) : Except Exn (Option CompId) :=
  match Session.current g with
  | none => Except.error Exn.sessionError
  | some sid => Except.ok ((g.sessions sid).components k)

/-- `Session.register(comp_cls, comp)`: raise a `ComponentError` when the
component already belongs to a session, or when the kind is already registered
here; otherwise record the mapping and set the component's back-reference.
The result pairs the updated state with the raised exception, if any. -/
def Session.register (g : Global) (sid : SessId) (k : Kind) (c : CompId) :
    Global × Option Exn :=
  match (g.comps c).session with
  | some _ => (g, some (Exn.componentAlreadyInSession c))
  | none =>
    match (g.sessions sid).components k with
    | some _ => (g, some (Exn.kindAlreadyRegistered k))
    | none =>
      let g1 := updateSession g sid fun s =>
        { s with components := fun k2 => if k2 = k then some c else s.components k2 }
      (updateComp g1 c fun comp => { comp with session := some sid }, none)

/-- The invariant of claim C1: `unused_event` is set exactly when the
reverse-dependency set is empty. -/
def unusedInv (c : Component) : Prop :=
  c.unused_event = true ↔ c.reverse_dependencies = []

/-- `NoneComponent`: the null-capability stand-in.  It carries no data; its
one operation is `__getattr__`. -/
structure NoneComponent where
deriving Repr, DecidableEq

/-- `NoneComponent.__getattr__(item)`: every attribute or method access
returns a fresh `NoneComponent()`. -/
def NoneComponent.getattr (_ : NoneComponent) (_ : String) : NoneComponent :=
  NoneComponent.mk

/-- A finite chain of attribute accesses `x.a1.a2...an` starting from a
`NoneComponent`. -/
def NoneComponent.chain (c : NoneComponent) (attrs : List String) : NoneComponent :=
  attrs.foldl (fun acc a => NoneComponent.getattr acc a) c

/-- Result of an `async` dependency-resolution call: `blocked` when the call
is suspended on `dep.started_event.wait()` (the event is not set), otherwise
the state after the call together with the raised exception or the returned
value. -/
inductive GetRes where
  | blocked : GetRes
  | error : Global → Exn → GetRes
  | ok : Global → Option CompId → GetRes

/-- `Component.get_component(dependency)` called by component `u` for kind
`k`: look the kind up via `dependency.instance()` (the current session's map);
return `None` when absent; wait on the dependency's `started_event`; return
`None` when it failed; otherwise add the usage edge unless it already exists
(`self.dependencies.add(dep)`, then `dep._use_by(self)`), and return the
dependency. -/
def Component.get_component (g : Global) (u : CompId) (k : Kind) : GetRes :=
  match Component.instanceLookup g k with
  | Except.error e => GetRes.error g e
  | Except.ok none => GetRes.ok g none
  | Except.ok (some d) =>
    if (g.comps d).started_event = false then GetRes.blocked
    else if (g.comps d).failed then GetRes.ok g none
    else if d ∈ (g.comps u).dependencies then GetRes.ok g (some d)
    else
      let g1 := updateComp g u fun c => { c with dependencies := d :: c.dependencies }
      let g2 := updateComp g1 d fun c => Component.use_by c u
      GetRes.ok g2 (some d)

/-- `Component.require_component(dependency)`: delegate to `get_component`;
raise `MissedDependency(self, dependency)` when it returned `None`. -/
def Component.require_component (g : Global) (u : CompId) (k : Kind) : GetRes :=
  match Component.get_component g u k with
  | GetRes.ok g1 none => GetRes.error g1 (Exn.missedDependency u k)
  | r => r

/-- What `maybe_component` hands back: either a real component or a
null-capability object. -/
inductive CompOrNone where
  | comp : CompId → CompOrNone
  | nullCap : NoneComponent → CompOrNone
deriving Repr, DecidableEq

/-- Result of `maybe_component`, mirroring `GetRes`. -/
inductive MaybeRes where
  | blocked : MaybeRes
  | error : Global → Exn → MaybeRes
  | ok : Global → CompOrNone → MaybeRes

/-- `Component.maybe_component(dependency)`:
`await self.get_component(dependency) or NoneComponent()` — the dependency
when one came back (a component object is truthy), otherwise a fresh
`NoneComponent`. -/
def Component.maybe_component (g : Global) (u : CompId) (k : Kind) : MaybeRes :=
  match Component.get_component g u k with
  | GetRes.blocked => MaybeRes.blocked
  | GetRes.error g1 e => MaybeRes.error g1 e
  | GetRes.ok g1 (some d) => MaybeRes.ok g1 (CompOrNone.comp d)
  | GetRes.ok g1 none => MaybeRes.ok g1 (CompOrNone.nullCap NoneComponent.mk)

/-- `Component._release_instance(dep)` called by component `i`: when `dep` is
in `i`'s dependency set, discard it there and call `dep._unuse_by(i)`. -/
def Component.release_instance (g : Global) (i : CompId) (dep : CompId) : Global :=
  if dep ∈ (g.comps i).dependencies then
    let g1 := updateComp g i fun c => { c with dependencies := c.dependencies.erase dep }
    updateComp g1 dep fun c => Component.unuse_by c i
  else g

/-- The `for dep in list(self.dependencies): self._release_instance(dep)` loop
in `Component.stop`, over a snapshot `l` of the dependency set. -/
def Component.releaseAll (g : Global) (i : CompId) (l : List CompId) : Global :=
  l.foldl (fun acc d => Component.release_instance acc i d) g

/-- `Component.stop()` for component `i`: first `await self.unused_event.wait()`
(`none` models the call still suspended because the event is not set); then run
the subclass `shutdown()` hook, whose outcome `shutdownResult` (`some e` = it
raised `e`) is an input of the model; the `finally` block unconditionally sets
`stopped` and releases every edge onto the component's own dependencies; a
`shutdown` exception is re-raised only after that cleanup (it is the second
part of the returned pair). -/
def Component.stop (g : Global) (i : CompId) (shutdownResult : Option Exn) :
    Option (Global × Option Exn) :=
  if (g.comps i).unused_event then
    let g1 := updateComp g i fun c => { c with stopped := true }
    some (Component.releaseAll g1 i ((g1.comps i).dependencies), shutdownResult)
  else none

/-- `Session.set_startup_exception(exc)`: a write-once cell — only the first
exception is kept. -/
def Session.set_startup_exception (s : SessionState) (e : Exn) : SessionState :=
  match s.startup_exception with
  | none => { s with startup_exception := some e }
  | some _ => s

/-- `Component.start()` for component `i`, whose `run()` outcome is the input
`runResult` (`some e` = `run()` raised `e`).  On success only the started
signal fires.  On exception: `failed := true`, the started signal fires, and
then either the exception is re-raised (failfast) or it is wrapped in
`ComponentStartupException(self, e)` and recorded in the session's write-once
startup-exception slot, after which `start()` returns normally.  The `none`
session branch models the `AttributeError` Python would raise if `start` ran
on an unregistered component (unreachable in normal use). -/
def Component.start (g : Global) (i : CompId) (runResult : Option Exn) :
    Global × Option Exn :=
  match runResult with
  | none =>
    (updateComp g i fun c => { c with started_event := true }, none)
  | some e =>
    let g1 := updateComp g i fun c => { c with failed := true, started_event := true }
    match (g1.comps i).session with
    | none => (g1, some Exn.sessionError)
    | some sid =>
      if (g1.sessions sid).failfast then (g1, some e)
      else
        let g2 := updateSession g1 sid fun s =>
          Session.set_startup_exception s (Exn.componentStartup i e)
        (updateComp g2 i fun c => { c with started_event := true }, none)

/-- The dependency returned by a resolution call, when one was. -/
def GetRes.dep : GetRes → Option CompId
  | GetRes.ok _ d => d
  | _ => none

/-- The combined state effect of recording a fresh usage edge in
`get_component`: `self.dependencies.add(dep)` followed by
`dep._use_by(self)`. -/
def addEdge (g : Global) (u d : CompId) : Global :=
  updateComp (updateComp g u fun c => { c with dependencies := d :: c.dependencies }) d
    fun c => Component.use_by c u

/-- Observable side effects of session construction and startup, used to
settle where in the lifecycle each step happens. -/
inductive Effect where
  | registerComp : CompId → Effect
  | reservePort : Nat → Effect
  | createStateDir : Effect
  | patchCrypto : Effect
  | setSSLCertEnv : Effect
  | startComp : CompId → Effect
deriving Repr, DecidableEq

/-- The four (possibly null) fixed ports `Session.__init__` reads from the
configuration. -/
structure TriblerConfig where
  libtorrent_port : Option Nat
  api_http_port : Option Nat
  api_https_port : Option Nat
  ipv8_port : Option Nat
deriving Repr, DecidableEq

/-- `reserve_ports(ports_list)`: remember every port of the list that is not
`None`, in order. -/
def reserve_ports (ports_list : List (Option Nat)) : List Effect :=
  ports_list.filterMap fun p => p.map Effect.reservePort

/-- The effect trace of `Session.__init__(config, components)`: register every
component, then reserve the four fixed ports from the configuration. -/
def Session.initEffects (cfg : TriblerConfig) (components : List CompId) : List Effect :=
  components.map Effect.registerComp ++
    reserve_ports [cfg.libtorrent_port, cfg.api_http_port, cfg.api_https_port, cfg.ipv8_port]

/-- The effect trace of `Session.start_components()`: create the state
directory structure, patch crypto discovery, set the SSL certificate
environment variable on macOS only, then concurrently start every registered
component. -/
def Session.start_componentsEffects (darwin : Bool) (components : List CompId) :
    List Effect :=
  Effect.createStateDir :: Effect.patchCrypto ::
    ((if darwin then [Effect.setSSLCertEnv] else []) ++ components.map Effect.startComp)

/-- The effects of one session run in order: construction first, then
`start_components()`. -/
def Session.lifeTrace (cfg : TriblerConfig) (components : List CompId) (darwin : Bool) :
    List Effect :=
  Session.initEffects cfg components ++ Session.start_componentsEffects darwin components

/-- A freshly constructed session: empty component map, no captured startup
exception. -/
def SessionState.mkNew (failfast : Bool) : SessionState :=
  { failfast := failfast, startup_exception := none, components := fun _ => none }

/-- A ground program state for evaluating theorems on concrete inputs: every
component fresh, every session freshly constructed with `failfast = true`, no
ambient session. -/
def gReg : Global :=
  { comps := fun _ => Component.mkNew
    sessions := fun _ => SessionState.mkNew true
    stack := []
    defaultSession := none }

/-- A concrete state for evaluating `Component.start`: component 0 is
registered in session 1, and every session runs under the collect-and-continue
policy (`failfast = false`). -/
def gStartW : Global :=
  { comps := fun j => if j = 0 then { Component.mkNew with session := some 1 }
      else Component.mkNew
    sessions := fun _ => SessionState.mkNew false
    stack := []
    defaultSession := none }

/-- A concrete state with two sessions: session 1 owns components 0 and 1 and
maps kind 0 to component 1; session 2 owns component 2 and maps kind 0 to
component 2; session 2 sits on top of the ambient session stack.  Components 1
and 2 have started successfully. -/
def gAmb : Global :=
  { comps := fun j =>
      if j = 0 then { Component.mkNew with session := some 1 }
      else if j = 1 then { Component.mkNew with session := some 1, started_event := true }
      else if j = 2 then { Component.mkNew with session := some 2, started_event := true }
      else Component.mkNew
    sessions := fun s =>
      if s = 1 then
        { SessionState.mkNew true with components := fun k => if k = 0 then some 1 else none }
      else if s = 2 then
        { SessionState.mkNew true with components := fun k => if k = 0 then some 2 else none }
      else SessionState.mkNew true
    stack := [2]
    defaultSession := none }

/-- A concrete state for evaluating `Component.stop`: component 0 holds a
usage edge onto component 1 and is itself unused; component 1 is used by
component 0 and therefore not unused. -/
def gStop : Global :=
  { comps := fun j =>
      if j = 0 then
        { Component.mkNew with session := some 1, dependencies := [1], started_event := true }
      else if j = 1 then
        { Component.mkNew with
          session := some 1
          started_event := true
          reverse_dependencies := [0]
          unused_event := false }
      else Component.mkNew
    sessions := fun _ => SessionState.mkNew true
    stack := []
    defaultSession := none }

end TriblerComponents

namespace TriblerComponents

/-- C1: the unused signal of a component is set iff its reverse-dependency set
is empty: this holds of a freshly constructed component (whose
reverse-dependency set is empty and whose unused signal is set), and both
`_use_by` (under its assertion that the user is not yet a reverse dependency)
and `_unuse_by` (under its assertion that the user is one) preserve the
equivalence. -/
theorem C1_unused_iff_no_reverse_deps :
    (Component.mkNew.reverse_dependencies = [] ∧
      Component.mkNew.unused_event = true ∧ unusedInv Component.mkNew) ∧
    (∀ c u, u ∉ c.reverse_dependencies → unusedInv c →
      unusedInv (Component.use_by c u)) ∧
    (∀ c u, u ∈ c.reverse_dependencies → unusedInv c →
      unusedInv (Component.unuse_by c u)) := by
  refine ⟨⟨rfl, rfl, by simp [unusedInv, Component.mkNew]⟩, ?_, ?_⟩
  · intro c u hu hinv
    simp only [unusedInv, Component.use_by, setAdd, if_neg hu] at *
    rcases hr : c.reverse_dependencies with _ | ⟨a, t⟩
    · simp [hr]
    · have hne : c.unused_event = false := by
        rcases Bool.eq_false_or_eq_true c.unused_event with h | h
        · exact absurd (hinv.mp h) (by simp [hr])
        · exact h
      simp [hr, hne]
  · intro c u hu hinv
    simp only [unusedInv, Component.unuse_by] at *
    have hne : c.unused_event = false := by
      rcases Bool.eq_false_or_eq_true c.unused_event with h | h
      · rw [hinv.mp h] at hu; exact absurd hu (List.not_mem_nil u)
      · exact h
    rcases he : (c.reverse_dependencies.erase u).isEmpty with _ | _
    · simp only [he, if_neg Bool.false_ne_true, hne]
      constructor
      · intro h; exact absurd h (by simp)
      · intro h
        rw [h] at he
        simp at he
    · simp only [he, if_pos rfl]
      rw [List.isEmpty_iff] at he
      simp [he]

/-- Witness for C1 at a concrete component: adding a first user to a fresh
component preserves the invariant. -/
theorem C1_witness :
    (0 : CompId) ∉ Component.mkNew.reverse_dependencies ∧
      unusedInv Component.mkNew ∧
      unusedInv (Component.use_by Component.mkNew 0) :=
  ⟨by decide, by simp [unusedInv, Component.mkNew],
    C1_unused_iff_no_reverse_deps.2.1 Component.mkNew 0 (by decide)
      (by simp [unusedInv, Component.mkNew])⟩

theorem updateComp_comps_same (g : Global) (i : CompId) (f : Component → Component) :
    (updateComp g i f).comps i = f (g.comps i) := by
  simp [updateComp]

theorem updateComp_comps_other (g : Global) (i : CompId) (f : Component → Component)
    (j : CompId) (h : j ≠ i) : (updateComp g i f).comps j = g.comps j := by
  simp [updateComp, h]

theorem updateComp_sessions (g : Global) (i : CompId) (f : Component → Component) :
    (updateComp g i f).sessions = g.sessions := rfl

theorem updateComp_stack (g : Global) (i : CompId) (f : Component → Component) :
    (updateComp g i f).stack = g.stack := rfl

theorem updateSession_comps (g : Global) (s : SessId) (f : SessionState → SessionState) :
    (updateSession g s f).comps = g.comps := rfl

theorem updateSession_sessions_same (g : Global) (s : SessId)
    (f : SessionState → SessionState) :
    (updateSession g s f).sessions s = f (g.sessions s) := by
  simp [updateSession]

theorem updateSession_sessions_other (g : Global) (s : SessId)
    (f : SessionState → SessionState) (t : SessId) (h : t ≠ s) :
    (updateSession g s f).sessions t = g.sessions t := by
  simp [updateSession, h]

theorem unuse_by_rdeps (c : Component) (u : CompId) :
    (Component.unuse_by c u).reverse_dependencies =
      c.reverse_dependencies.erase u := rfl

theorem unuse_by_deps (c : Component) (u : CompId) :
    (Component.unuse_by c u).dependencies = c.dependencies := rfl

theorem unuse_by_stopped (c : Component) (u : CompId) :
    (Component.unuse_by c u).stopped = c.stopped := rfl

theorem use_by_rdeps (c : Component) (u : CompId) :
    (Component.use_by c u).reverse_dependencies =
      setAdd c.reverse_dependencies u := rfl

theorem use_by_deps (c : Component) (u : CompId) :
    (Component.use_by c u).dependencies = c.dependencies := rfl

theorem use_by_started (c : Component) (u : CompId) :
    (Component.use_by c u).started_event = c.started_event := rfl

theorem use_by_failed (c : Component) (u : CompId) :
    (Component.use_by c u).failed = c.failed := rfl

/-- C10: every attribute or method access on a `NoneComponent` returns another
`NoneComponent` instance, so a finite chain of accesses starting from a
`NoneComponent` never raises and evaluates to a `NoneComponent`. -/
theorem C10_nullcap_chain :
    (∀ (c : NoneComponent) (a : String), NoneComponent.getattr c a = NoneComponent.mk) ∧
    (∀ (c : NoneComponent) (attrs : List String),
      NoneComponent.chain c attrs = NoneComponent.mk) := by
  have hall : ∀ c : NoneComponent, c = NoneComponent.mk := fun c => by cases c; rfl
  refine ⟨fun c a => rfl, fun c attrs => ?_⟩
  induction attrs generalizing c with
  | nil => exact hall c
  | cons a t ih => exact ih (NoneComponent.getattr c a)

/-- C9: `register(kind, component)` fails with a registration-conflict error
when the component already belongs to a session or the kind is already taken in
this session, returning the state unchanged; on success it raises nothing, adds
exactly the one mapping `kind -> component` (all other kinds and sessions
unchanged), and sets the component's back-reference to this session, leaving
every other component unchanged. -/
theorem C9_register_conflicts_and_success (g : Global) (sid : SessId) (k : Kind)
    (c : CompId) :
    ((g.comps c).session ≠ none →
      Session.register g sid k c = (g, some (Exn.componentAlreadyInSession c))) ∧
    ((g.comps c).session = none → (g.sessions sid).components k ≠ none →
      Session.register g sid k c = (g, some (Exn.kindAlreadyRegistered k))) ∧
    ((g.comps c).session = none → (g.sessions sid).components k = none →
      (Session.register g sid k c).2 = none ∧
      ((Session.register g sid k c).1.sessions sid).components k = some c ∧
      (∀ k2, k2 ≠ k →
        ((Session.register g sid k c).1.sessions sid).components k2 =
          (g.sessions sid).components k2) ∧
      (∀ s2, s2 ≠ sid →
        (Session.register g sid k c).1.sessions s2 = g.sessions s2) ∧
      ((Session.register g sid k c).1.comps c).session = some sid ∧
      (∀ c2, c2 ≠ c → (Session.register g sid k c).1.comps c2 = g.comps c2)) := by
  refine ⟨?_, ?_, ?_⟩
  · intro h
    rcases hs : (g.comps c).session with _ | s0
    · exact absurd hs h
    · simp [Session.register, hs]
  · intro h1 h2
    rcases hm : (g.sessions sid).components k with _ | c0
    · exact absurd hm h2
    · simp [Session.register, h1, hm]
  · intro h1 h2
    refine ⟨?_, ?_, ?_, ?_, ?_, ?_⟩
    · simp [Session.register, h1, h2]
    · simp [Session.register, h1, h2, updateComp, updateSession]
    · intro k2 hk2
      simp [Session.register, h1, h2, updateComp, updateSession, hk2]
    · intro s2 hs2
      simp [Session.register, h1, h2, updateComp, updateSession, hs2]
    · simp [Session.register, h1, h2, updateComp, updateSession]
    · intro c2 hc2
      simp [Session.register, h1, h2, updateComp, updateSession, hc2]

/-- Witness for C9 at concrete inputs: registering a fresh component under a
free kind succeeds and records exactly that mapping. -/
theorem C9_witness :
    ((gReg.comps 5).session = none ∧ (gReg.sessions 1).components 7 = none) ∧
      ((Session.register gReg 1 7 5).2 = none ∧
        ((Session.register gReg 1 7 5).1.sessions 1).components 7 = some 5) := by
  have h := C9_register_conflicts_and_success gReg 1 7 5
  exact ⟨⟨rfl, rfl⟩, (h.2.2 rfl rfl).1, (h.2.2 rfl rfl).2.1⟩

/-- C3: when `run()` raises `e` during `start()`, the component is marked
failed and its started signal fires regardless; under the failfast policy the
exception is re-raised and no session state changes; otherwise `start()`
returns normally and the session's captured startup exception becomes the
wrapped `ComponentStartupException(component, e)` if the slot was empty, and is
left as it was otherwise (first one wins), with other sessions untouched. -/
theorem C3_start_failure_policy (g : Global) (i : CompId) (sid : SessId) (e : Exn)
    (hs : (g.comps i).session = some sid) :
    ((Component.start g i (some e)).1.comps i).failed = true ∧
    ((Component.start g i (some e)).1.comps i).started_event = true ∧
    ((g.sessions sid).failfast = true →
      (Component.start g i (some e)).2 = some e ∧
      (Component.start g i (some e)).1.sessions = g.sessions) ∧
    ((g.sessions sid).failfast = false →
      (Component.start g i (some e)).2 = none ∧
      ((Component.start g i (some e)).1.sessions sid).startup_exception =
        some (((g.sessions sid).startup_exception).getD (Exn.componentStartup i e)) ∧
      (∀ s2, s2 ≠ sid →
        (Component.start g i (some e)).1.sessions s2 = g.sessions s2)) := by
  by_cases hff : (g.sessions sid).failfast = true
  · refine ⟨?_, ?_, fun _ => ⟨?_, ?_⟩, fun hcf => ?_⟩
    · simp [Component.start, updateComp, hs, hff]
    · simp [Component.start, updateComp, hs, hff]
    · simp [Component.start, updateComp, hs, hff]
    · simp [Component.start, updateComp, hs, hff]
    · rw [hff] at hcf
      exact absurd hcf (by simp)
  · have hff2 : (g.sessions sid).failfast = false := by
      rcases Bool.eq_false_or_eq_true (g.sessions sid).failfast with h | h
      · exact absurd h hff
      · exact h
    refine ⟨?_, ?_, fun hct => ?_, fun _ => ⟨?_, ?_, ?_⟩⟩
    · simp [Component.start, updateComp, updateSession, hs, hff2]
    · simp [Component.start, updateComp, updateSession, hs, hff2]
    · rw [hff2] at hct
      exact absurd hct (by simp)
    · simp [Component.start, updateComp, updateSession, hs, hff2]
    · rcases hse : (g.sessions sid).startup_exception with _ | x
      · simp [Component.start, updateComp, updateSession, hs, hff2,
          Session.set_startup_exception, hse]
      · simp [Component.start, updateComp, updateSession, hs, hff2,
          Session.set_startup_exception, hse]
    · intro s2 hs2
      simp [Component.start, updateComp, updateSession, hs, hff2, hs2]

/-- Witness for C3 at a concrete state: under the collect policy, a failing
`run()` marks the component failed and records the wrapped exception. -/
theorem C3_witness :
    (gStartW.comps 0).session = some 1 ∧
      ((Component.start gStartW 0 (some (Exn.hookError 3))).1.comps 0).failed = true ∧
      ((Component.start gStartW 0 (some (Exn.hookError 3))).1.sessions 1).startup_exception =
        some (Exn.componentStartup 0 (Exn.hookError 3)) := by
  have h := C3_start_failure_policy gStartW 0 1 (Exn.hookError 3) rfl
  refine ⟨rfl, h.1, ?_⟩
  have h2 := ((h.2.2.2 rfl).2.1)
  simpa using h2

/-- C4: `require_component(kind)` on a dependency whose kind is absent from
the (current) session's map, or that has `failed = true` once its started
signal fired, raises `MissedDependency` carrying the requester and the
requested kind; and whenever `require_component` returns a component at all,
that component is registered under the kind and did not fail. -/
theorem C4_require_missing_or_failed (g : Global) (u : CompId) (k : Kind) (sid : SessId)
    (hcur : Session.current g = some sid) :
    ((g.sessions sid).components k = none →
      Component.require_component g u k = GetRes.error g (Exn.missedDependency u k)) ∧
    (∀ d, (g.sessions sid).components k = some d →
      (g.comps d).started_event = true → (g.comps d).failed = true →
      Component.require_component g u k = GetRes.error g (Exn.missedDependency u k)) ∧
    (∀ g2 d, Component.require_component g u k = GetRes.ok g2 (some d) →
      (g.sessions sid).components k = some d ∧ (g.comps d).failed = false) := by
  refine ⟨?_, ?_, ?_⟩
  · intro hm
    simp [Component.require_component, Component.get_component,
      Component.instanceLookup, hcur, hm]
  · intro d hm hst hf
    simp [Component.require_component, Component.get_component,
      Component.instanceLookup, hcur, hm, hst, hf]
  · intro g2 d heq
    rcases hm : (g.sessions sid).components k with _ | d0
    · simp [Component.require_component, Component.get_component,
        Component.instanceLookup, hcur, hm] at heq
    · rcases hst : (g.comps d0).started_event with _ | _
      · simp [Component.require_component, Component.get_component,
          Component.instanceLookup, hcur, hm, hst] at heq
      · rcases hf : (g.comps d0).failed with _ | _
        · by_cases hd : d0 ∈ (g.comps u).dependencies
          · simp [Component.require_component, Component.get_component,
              Component.instanceLookup, hcur, hm, hst, hf, hd] at heq
            rcases heq with ⟨hg, hd0⟩
            subst hd0
            exact ⟨rfl, hf⟩
          · simp [Component.require_component, Component.get_component,
              Component.instanceLookup, hcur, hm, hst, hf, hd] at heq
            rcases heq with ⟨hg, hd0⟩
            subst hd0
            exact ⟨rfl, hf⟩
        · simp [Component.require_component, Component.get_component,
            Component.instanceLookup, hcur, hm, hst, hf] at heq

/-- Witness for C4 at a concrete state: requiring an unregistered kind raises
`MissedDependency` naming the requester and the kind. -/
theorem C4_witness :
    Session.current gAmb = some 2 ∧ (gAmb.sessions 2).components 5 = none ∧
      Component.require_component gAmb 0 5 =
        GetRes.error gAmb (Exn.missedDependency 0 5) :=
  ⟨rfl, rfl, (C4_require_missing_or_failed gAmb 0 5 2 rfl).1 rfl⟩

/-- C5: `get_component(kind)` on an absent kind, or on a dependency that has
failed (its started signal having fired), raises nothing and returns `None`,
leaving the state untouched; `maybe_component(kind)` likewise raises nothing
and returns a `NoneComponent`. -/
theorem C5_get_maybe_never_raise (g : Global) (u : CompId) (k : Kind) (sid : SessId)
    (hcur : Session.current g = some sid)
    (habs : (g.sessions sid).components k = none ∨
      ∃ d, (g.sessions sid).components k = some d ∧
        (g.comps d).started_event = true ∧ (g.comps d).failed = true) :
    Component.get_component g u k = GetRes.ok g none ∧
    Component.maybe_component g u k =
      MaybeRes.ok g (CompOrNone.nullCap NoneComponent.mk) := by
  rcases habs with hm | ⟨d, hm, hst, hf⟩
  · constructor
    · simp [Component.get_component, Component.instanceLookup, hcur, hm]
    · simp [Component.maybe_component, Component.get_component,
        Component.instanceLookup, hcur, hm]
  · constructor
    · simp [Component.get_component, Component.instanceLookup, hcur, hm, hst, hf]
    · simp [Component.maybe_component, Component.get_component,
        Component.instanceLookup, hcur, hm, hst, hf]

/-- Witness for C5 at a concrete state: an unregistered kind yields `None`
from `get_component` and a `NoneComponent` from `maybe_component`. -/
theorem C5_witness :
    Session.current gAmb = some 2 ∧ (gAmb.sessions 2).components 5 = none ∧
      Component.get_component gAmb 0 5 = GetRes.ok gAmb none ∧
      Component.maybe_component gAmb 0 5 =
        MaybeRes.ok gAmb (CompOrNone.nullCap NoneComponent.mk) := by
  have h := C5_get_maybe_never_raise gAmb 0 5 2 rfl (Or.inl rfl)
  exact ⟨rfl, rfl, h.1, h.2⟩

/-- C7 counterexample: dependency resolution reads `Session.current()`, not
the requester's own session.  In `gAmb`, requester 0 belongs to session 1,
which registers component 1 under kind 0; yet with session 2 on top of the
ambient stack, `get_component` resolves kind 0 to component 2. -/
theorem C7_counterexample :
    (gAmb.comps 0).session = some 1 ∧
      (gAmb.sessions 1).components 0 = some 1 ∧
      GetRes.dep (Component.get_component gAmb 0 0) = some 2 ∧
      (2 : CompId) ≠ 1 := by
  refine ⟨rfl, rfl, ?_, by decide⟩
  rfl

/-- C7 as amended: resolution looks the kind up in the ambient current session
(`Session.current()`: top of the session stack, else the process default); in
particular, whenever the current session is the requester's own session — the
normal situation, since components start inside their session's context — the
component returned is the one registered under the kind in the requester's own
session. -/
theorem C7_amended_current_session_lookup (g : Global) (u : CompId) (k : Kind)
    (sid : SessId) (hcur : Session.current g = some sid) :
    Component.instanceLookup g k = Except.ok ((g.sessions sid).components k) ∧
    ((g.comps u).session = some sid →
      ∀ g2 d, Component.get_component g u k = GetRes.ok g2 (some d) →
        (g.sessions sid).components k = some d) := by
  constructor
  · simp [Component.instanceLookup, hcur]
  · intro _ g2 d heq
    rcases hm : (g.sessions sid).components k with _ | d0
    · simp [Component.get_component, Component.instanceLookup, hcur, hm] at heq
    · rcases hst : (g.comps d0).started_event with _ | _
      · simp [Component.get_component, Component.instanceLookup, hcur, hm, hst] at heq
      · rcases hf : (g.comps d0).failed with _ | _
        · by_cases hd : d0 ∈ (g.comps u).dependencies
          · simp [Component.get_component, Component.instanceLookup,
              hcur, hm, hst, hf, hd] at heq
            rcases heq with ⟨hg, hd0⟩
            subst hd0
            rfl
          · simp [Component.get_component, Component.instanceLookup,
              hcur, hm, hst, hf, hd] at heq
            rcases heq with ⟨hg, hd0⟩
            subst hd0
            rfl
        · simp [Component.get_component, Component.instanceLookup,
            hcur, hm, hst, hf] at heq

/-- Witness for the amended C7 at a concrete state: with session 2 current,
the lookup reads session 2's component map. -/
theorem C7_witness :
    Session.current gAmb = some 2 ∧
      Component.instanceLookup gAmb 0 = Except.ok ((gAmb.sessions 2).components 0) :=
  ⟨rfl, (C7_amended_current_session_lookup gAmb 2 0 2 rfl).1⟩

theorem release_comps (g : Global) (i dep c : CompId)
    (hmem : dep ∈ (g.comps i).dependencies) :
    (Component.release_instance g i dep).comps c =
      (if c = dep then
        Component.unuse_by
          (if c = i then
            { g.comps c with dependencies := (g.comps c).dependencies.erase dep }
          else g.comps c) i
      else
        (if c = i then
          { g.comps c with dependencies := (g.comps c).dependencies.erase dep }
        else g.comps c)) := by
  by_cases hcd : c = dep <;> by_cases hci : c = i <;>
    simp [Component.release_instance, hmem, updateComp, hcd, hci]

theorem release_rdeps_cases (g : Global) (i dep c : CompId) :
    ((Component.release_instance g i dep).comps c).reverse_dependencies =
      (g.comps c).reverse_dependencies ∨
    ((Component.release_instance g i dep).comps c).reverse_dependencies =
      (g.comps c).reverse_dependencies.erase i := by
  by_cases hmem : dep ∈ (g.comps i).dependencies
  · rw [release_comps g i dep c hmem]
    have hmid :
        (if c = i then
          { g.comps c with dependencies := (g.comps c).dependencies.erase dep }
        else g.comps c).reverse_dependencies = (g.comps c).reverse_dependencies := by
      split <;> rfl
    by_cases hcd : c = dep
    · right
      rw [if_pos hcd, unuse_by_rdeps, hmid]
    · left
      rw [if_neg hcd, hmid]
  · left
    simp [Component.release_instance, hmem]

theorem release_rdeps_not_mem (g : Global) (i dep c x : CompId)
    (h : x ∉ (g.comps c).reverse_dependencies) :
    x ∉ ((Component.release_instance g i dep).comps c).reverse_dependencies := by
  rcases release_rdeps_cases g i dep c with hc | hc <;> rw [hc]
  · exact h
  · intro hx
    exact h (List.mem_of_mem_erase hx)

theorem release_rdeps_nodup (g : Global) (i dep c : CompId)
    (h : ((g.comps c).reverse_dependencies).Nodup) :
    (((Component.release_instance g i dep).comps c).reverse_dependencies).Nodup := by
  rcases release_rdeps_cases g i dep c with hc | hc <;> rw [hc]
  · exact h
  · exact h.erase i

theorem release_deps (g : Global) (i dep : CompId) :
    ((Component.release_instance g i dep).comps i).dependencies =
      (g.comps i).dependencies.erase dep := by
  by_cases hmem : dep ∈ (g.comps i).dependencies
  · rw [release_comps g i dep i hmem]
    have hmid :
        (if i = i then
          { g.comps i with dependencies := (g.comps i).dependencies.erase dep }
        else g.comps i).dependencies = (g.comps i).dependencies.erase dep := by
      simp
    by_cases hid : i = dep
    · rw [if_pos hid, unuse_by_deps, hmid]
    · rw [if_neg hid, hmid]
  · simp [Component.release_instance, hmem, List.erase_of_not_mem hmem]

theorem release_stopped (g : Global) (i dep c : CompId) :
    ((Component.release_instance g i dep).comps c).stopped = (g.comps c).stopped := by
  by_cases hmem : dep ∈ (g.comps i).dependencies
  · rw [release_comps g i dep c hmem]
    have hmid :
        (if c = i then
          { g.comps c with dependencies := (g.comps c).dependencies.erase dep }
        else g.comps c).stopped = (g.comps c).stopped := by
      split <;> rfl
    by_cases hcd : c = dep
    · rw [if_pos hcd, unuse_by_stopped, hmid]
    · rw [if_neg hcd, hmid]
  · simp [Component.release_instance, hmem]

theorem release_removes (g : Global) (i dep : CompId)
    (hmem : dep ∈ (g.comps i).dependencies)
    (hnd : ((g.comps dep).reverse_dependencies).Nodup) :
    i ∉ ((Component.release_instance g i dep).comps dep).reverse_dependencies := by
  rw [release_comps g i dep dep hmem, if_pos rfl, unuse_by_rdeps]
  have hmid :
      (if dep = i then
        { g.comps dep with dependencies := (g.comps dep).dependencies.erase dep }
      else g.comps dep).reverse_dependencies = (g.comps dep).reverse_dependencies := by
    split <;> rfl
  rw [hmid]
  intro hx
  exact absurd ((hnd.mem_erase_iff).mp hx).1 (by simp)

theorem releaseAll_cons (g : Global) (i a : CompId) (t : List CompId) :
    Component.releaseAll g i (a :: t) =
      Component.releaseAll (Component.release_instance g i a) i t := rfl

theorem releaseAll_not_mem (i : CompId) (l : List CompId) :
    ∀ (g : Global) (c x : CompId), x ∉ (g.comps c).reverse_dependencies →
      x ∉ ((Component.releaseAll g i l).comps c).reverse_dependencies := by
  induction l with
  | nil =>
    intro g c x h
    simpa [Component.releaseAll] using h
  | cons a t ih =>
    intro g c x h
    rw [releaseAll_cons]
    exact ih (Component.release_instance g i a) c x (release_rdeps_not_mem g i a c x h)

theorem releaseAll_stopped (i : CompId) (l : List CompId) :
    ∀ (g : Global) (c : CompId),
      ((Component.releaseAll g i l).comps c).stopped = (g.comps c).stopped := by
  induction l with
  | nil =>
    intro g c
    simp [Component.releaseAll]
  | cons a t ih =>
    intro g c
    rw [releaseAll_cons, ih]
    exact release_stopped g i a c

theorem releaseAll_drains (i : CompId) (l : List CompId) :
    ∀ (g : Global), l.Nodup → (g.comps i).dependencies = l →
      (∀ c, ((g.comps c).reverse_dependencies).Nodup) →
      ((Component.releaseAll g i l).comps i).dependencies = [] ∧
      ∀ d ∈ l, i ∉ ((Component.releaseAll g i l).comps d).reverse_dependencies := by
  induction l with
  | nil =>
    intro g _ hdeps _
    exact ⟨by simpa [Component.releaseAll] using hdeps, by simp⟩
  | cons a t ih =>
    intro g hnd hdeps hrd
    have hmem : a ∈ (g.comps i).dependencies := by
      rw [hdeps]
      exact List.mem_cons_self a t
    have hdeps1 :
        ((Component.release_instance g i a).comps i).dependencies = t := by
      rw [release_deps, hdeps, List.erase_cons_head]
    have hrd1 : ∀ c,
        (((Component.release_instance g i a).comps c).reverse_dependencies).Nodup :=
      fun c => release_rdeps_nodup g i a c (hrd c)
    have hna : i ∉ ((Component.release_instance g i a).comps a).reverse_dependencies :=
      release_removes g i a hmem (hrd a)
    have hrec := ih (Component.release_instance g i a) (List.Nodup.of_cons hnd) hdeps1 hrd1
    refine ⟨by rw [releaseAll_cons]; exact hrec.1, ?_⟩
    intro d hd
    rcases List.mem_cons.mp hd with h | h
    · subst h
      rw [releaseAll_cons]
      exact releaseAll_not_mem i t (Component.release_instance g i d) d i hna
    · rw [releaseAll_cons]
      exact hrec.2 d h

/-- C2: `stop()` does not invoke `shutdown()` while the unused signal is
clear (the call stays suspended, and under the C1 invariant the signal being
set means no component holds a usage edge any more); once the wait completes,
whatever `shutdown()` does, the component is marked stopped and every edge it
holds onto its own dependencies is released, and a `shutdown` exception is
re-raised only after that cleanup. -/
theorem C2_stop_drains_unconditionally :
    (∀ (g : Global) (i : CompId) (r : Option Exn),
      (g.comps i).unused_event = false → Component.stop g i r = none) ∧
    (∀ (g : Global) (i : CompId) (r : Option Exn),
      (g.comps i).unused_event = true →
      unusedInv (g.comps i) →
      ((g.comps i).dependencies).Nodup →
      (∀ c, ((g.comps c).reverse_dependencies).Nodup) →
      (g.comps i).reverse_dependencies = [] ∧
      ∃ g2, Component.stop g i r = some (g2, r) ∧
        (g2.comps i).stopped = true ∧
        (g2.comps i).dependencies = [] ∧
        ∀ d ∈ (g.comps i).dependencies, i ∉ (g2.comps d).reverse_dependencies) := by
  constructor
  · intro g i r hu
    simp [Component.stop, hu]
  · intro g i r hu hinv hndd hndr
    refine ⟨hinv.mp hu, ?_⟩
    have hdeps1 :
        (((updateComp g i fun c => { c with stopped := true }).comps i).dependencies) =
          (g.comps i).dependencies := by
      simp [updateComp]
    have hrd1 : ∀ c,
        (((updateComp g i fun c => { c with stopped := true }).comps c).reverse_dependencies)
          = (g.comps c).reverse_dependencies := by
      intro c
      by_cases hc : c = i <;> simp [updateComp, hc]
    have hndr1 : ∀ c,
        (((updateComp g i fun c => { c with stopped := true }).comps c).reverse_dependencies).Nodup := by
      intro c
      rw [hrd1 c]
      exact hndr c
    have hdrain := releaseAll_drains i ((g.comps i).dependencies)
      (updateComp g i fun c => { c with stopped := true }) hndd hdeps1 hndr1
    refine ⟨Component.releaseAll (updateComp g i fun c => { c with stopped := true }) i
      ((g.comps i).dependencies), ?_, ?_, ?_, ?_⟩
    · simp [Component.stop, hu, hdeps1]
    · rw [releaseAll_stopped]
      simp [updateComp]
    · exact hdrain.1
    · exact hdrain.2

/-- Witness for C2 at a concrete state: stopping component 0, which is unused
and depends on component 1, marks it stopped and removes it from component 1's
reverse dependencies. -/
theorem C2_witness :
    (gStop.comps 0).unused_event = true ∧
      ((gStop.comps 0).reverse_dependencies = [] ∧
        ∃ g2, Component.stop gStop 0 none = some (g2, none) ∧
          (g2.comps 0).stopped = true ∧
          (g2.comps 0).dependencies = [] ∧
          ∀ d ∈ (gStop.comps 0).dependencies, 0 ∉ (g2.comps d).reverse_dependencies) := by
  refine ⟨rfl, C2_stop_drains_unconditionally.2 gStop 0 none rfl
    ⟨fun _ => rfl, fun _ => rfl⟩ (by decide) ?_⟩
  intro c
  by_cases h0 : c = 0
  · subst h0
    decide
  · by_cases h1 : c = 1
    · subst h1
      decide
    · simp [gStop, Component.mkNew, h0, h1]

theorem addEdge_current (g : Global) (u d : CompId) :
    Session.current (addEdge g u d) = Session.current g := rfl

theorem addEdge_sessions (g : Global) (u d : CompId) :
    (addEdge g u d).sessions = g.sessions := rfl

theorem addEdge_comps_u_deps (g : Global) (u d : CompId) :
    ((addEdge g u d).comps u).dependencies = d :: (g.comps u).dependencies := by
  by_cases hud : u = d
  · subst hud
    simp [addEdge, updateComp_comps_same, use_by_deps]
  · simp [addEdge, updateComp_comps_same, use_by_deps,
      updateComp_comps_other _ _ _ _ hud]

theorem addEdge_comps_d_rdeps (g : Global) (u d : CompId)
    (hrd : u ∉ (g.comps d).reverse_dependencies) :
    ((addEdge g u d).comps d).reverse_dependencies =
      u :: (g.comps d).reverse_dependencies := by
  by_cases hud : u = d
  · subst hud
    simp [addEdge, updateComp_comps_same, use_by_rdeps, setAdd, hrd]
  · simp [addEdge, updateComp_comps_same, use_by_rdeps, setAdd, hrd,
      updateComp_comps_other _ _ _ _ (Ne.symm hud)]

theorem addEdge_comps_d_started (g : Global) (u d : CompId) :
    ((addEdge g u d).comps d).started_event = (g.comps d).started_event := by
  by_cases hud : u = d
  · subst hud
    simp [addEdge, updateComp_comps_same, use_by_started]
  · simp [addEdge, updateComp_comps_same, use_by_started,
      updateComp_comps_other _ _ _ _ (Ne.symm hud)]

theorem addEdge_comps_d_failed (g : Global) (u d : CompId) :
    ((addEdge g u d).comps d).failed = (g.comps d).failed := by
  by_cases hud : u = d
  · subst hud
    simp [addEdge, updateComp_comps_same, use_by_failed]
  · simp [addEdge, updateComp_comps_same, use_by_failed,
      updateComp_comps_other _ _ _ _ (Ne.symm hud)]

/-- C6: resolving the same kind twice from the same requester — by any of
`require_component` / `get_component` / `maybe_component` — creates exactly one
usage edge: the first successful call adds the edge, the second call finds it
present and leaves the state unchanged, and afterwards the dependency appears
exactly once in the requester's dependency set and the requester exactly once
in the dependency's reverse-dependency set. -/
theorem C6_edge_idempotent (g : Global) (u : CompId) (k : Kind) (sid : SessId)
    (d : CompId)
    (hcur : Session.current g = some sid)
    (hm : (g.sessions sid).components k = some d)
    (hst : (g.comps d).started_event = true)
    (hf : (g.comps d).failed = false)
    (hdep : d ∉ (g.comps u).dependencies)
    (hrd : u ∉ (g.comps d).reverse_dependencies) :
    ∃ g2,
      Component.get_component g u k = GetRes.ok g2 (some d) ∧
      Component.require_component g u k = GetRes.ok g2 (some d) ∧
      Component.maybe_component g u k = MaybeRes.ok g2 (CompOrNone.comp d) ∧
      Component.get_component g2 u k = GetRes.ok g2 (some d) ∧
      Component.require_component g2 u k = GetRes.ok g2 (some d) ∧
      Component.maybe_component g2 u k = MaybeRes.ok g2 (CompOrNone.comp d) ∧
      (g2.comps u).dependencies.count d = 1 ∧
      (g2.comps d).reverse_dependencies.count u = 1 := by
  have hget : Component.get_component g u k = GetRes.ok (addEdge g u d) (some d) := by
    simp [Component.get_component, Component.instanceLookup, hcur, hm, hst, hf,
      hdep, addEdge]
  have hcur2 : Session.current (addEdge g u d) = some sid := hcur
  have hm2 : ((addEdge g u d).sessions sid).components k = some d := hm
  have hst2 : ((addEdge g u d).comps d).started_event = true := by
    rw [addEdge_comps_d_started]
    exact hst
  have hf2 : ((addEdge g u d).comps d).failed = false := by
    rw [addEdge_comps_d_failed]
    exact hf
  have hmem2 : d ∈ ((addEdge g u d).comps u).dependencies := by
    rw [addEdge_comps_u_deps]
    exact List.mem_cons_self d _
  have hget2 : Component.get_component (addEdge g u d) u k =
      GetRes.ok (addEdge g u d) (some d) := by
    simp [Component.get_component, Component.instanceLookup, hcur2, hm2, hst2,
      hf2, hmem2]
  refine ⟨addEdge g u d, hget, ?_, ?_, hget2, ?_, ?_, ?_, ?_⟩
  · simp [Component.require_component, hget]
  · simp [Component.maybe_component, hget]
  · simp [Component.require_component, hget2]
  · simp [Component.maybe_component, hget2]
  · rw [addEdge_comps_u_deps]
    simp [List.count_cons_self, List.count_eq_zero_of_not_mem hdep]
  · rw [addEdge_comps_d_rdeps g u d hrd]
    simp [List.count_cons_self, List.count_eq_zero_of_not_mem hrd]

/-- Witness for C6 at a concrete state: requester 0 resolving kind 0 (bound to
component 2) twice ends with a single edge in each direction. -/
theorem C6_witness :
    (Session.current gAmb = some 2 ∧ (gAmb.sessions 2).components 0 = some 2 ∧
      (gAmb.comps 2).started_event = true ∧ (gAmb.comps 2).failed = false ∧
      (2 : CompId) ∉ (gAmb.comps 0).dependencies ∧
      (0 : CompId) ∉ (gAmb.comps 2).reverse_dependencies) ∧
    ∃ g2,
      Component.get_component gAmb 0 0 = GetRes.ok g2 (some 2) ∧
      Component.require_component gAmb 0 0 = GetRes.ok g2 (some 2) ∧
      Component.maybe_component gAmb 0 0 = MaybeRes.ok g2 (CompOrNone.comp 2) ∧
      Component.get_component g2 0 0 = GetRes.ok g2 (some 2) ∧
      Component.require_component g2 0 0 = GetRes.ok g2 (some 2) ∧
      Component.maybe_component g2 0 0 = MaybeRes.ok g2 (CompOrNone.comp 2) ∧
      (g2.comps 0).dependencies.count 2 = 1 ∧
      (g2.comps 2).reverse_dependencies.count 0 = 1 :=
  ⟨⟨rfl, rfl, rfl, rfl, by decide, by decide⟩,
    C6_edge_idempotent gAmb 0 0 2 2 rfl rfl rfl rfl (by decide) (by decide)⟩

/-- C8 counterexample: with a fixed libtorrent port configured, the
port-reservation effect occurs nowhere in the `start_components()` trace — it
happens during `Session.__init__` — so the reservation is not a step of
`start_components()` as the claim states. -/
theorem C8_counterexample :
    (TriblerConfig.mk (some 6881) none none none).libtorrent_port = some 6881 ∧
      Effect.reservePort 6881 ∉ Session.start_componentsEffects false [0] ∧
      Effect.reservePort 6881 ∈
        Session.initEffects (TriblerConfig.mk (some 6881) none none none) [0] :=
  ⟨rfl, by decide, by decide⟩

/-- C8 as amended: `start_components()` performs the idempotent state-layout
creation first and only then starts every registered component concurrently;
the reservation of every fixed (non-null) configured port is not a step of
`start_components()` but of `Session.__init__`, which runs earlier in the
session's life. -/
theorem C8_amended_reservation_in_init (cfg : TriblerConfig) (comps : List CompId)
    (darwin : Bool) :
    (Session.start_componentsEffects darwin comps).head? = some Effect.createStateDir ∧
    (∀ p : Nat, Effect.reservePort p ∉ Session.start_componentsEffects darwin comps) ∧
    (∀ p : Nat, Effect.reservePort p ∈ Session.lifeTrace cfg comps darwin →
      Effect.reservePort p ∈ Session.initEffects cfg comps) ∧
    (∀ p, cfg.libtorrent_port = some p →
      Effect.reservePort p ∈ Session.initEffects cfg comps) ∧
    (∀ p, cfg.api_http_port = some p →
      Effect.reservePort p ∈ Session.initEffects cfg comps) ∧
    (∀ p, cfg.api_https_port = some p →
      Effect.reservePort p ∈ Session.initEffects cfg comps) ∧
    (∀ p, cfg.ipv8_port = some p →
      Effect.reservePort p ∈ Session.initEffects cfg comps) ∧
    (∀ c : CompId,
      Effect.startComp c ∈ Session.start_componentsEffects darwin comps ↔ c ∈ comps) := by
  have hnone : ∀ p : Nat,
      Effect.reservePort p ∉ Session.start_componentsEffects darwin comps := by
    intro p hp
    rcases darwin <;> simp [Session.start_componentsEffects] at hp
  refine ⟨rfl, hnone, ?_, ?_, ?_, ?_, ?_, ?_⟩
  · intro p hp
    rcases List.mem_append.mp hp with h | h
    · exact h
    · exact absurd h (hnone p)
  · intro p hp
    simp [Session.initEffects, reserve_ports, hp]
  · intro p hp
    simp [Session.initEffects, reserve_ports, hp]
  · intro p hp
    simp [Session.initEffects, reserve_ports, hp]
  · intro p hp
    simp [Session.initEffects, reserve_ports, hp]
  · intro c
    rcases darwin <;> simp [Session.start_componentsEffects]

/-- Witness for the amended C8 at concrete inputs: a configured fixed port is
reserved during session construction. -/
theorem C8_witness :
    (TriblerConfig.mk (some 6881) none none none).libtorrent_port = some 6881 ∧
      Effect.reservePort 6881 ∈
        Session.initEffects (TriblerConfig.mk (some 6881) none none none) [3] :=
  ⟨rfl,
    (C8_amended_reservation_in_init (TriblerConfig.mk (some 6881) none none none)
      [3] false).2.2.2.1 6881 rfl⟩

end TriblerComponents
